import Mathlib

/-!
# W_WW_Catalog — verification of the relationship-graph construction model

Shallow embedding of the core transformations of the repository
(src/main.py, src/all_relation.py): table loading with sentinel
substitution and tag parsing, exact-match filtering, and the two graph
builders (star mode `create_partnership_graph` and bipartite mode
`create_full_bipartite_graph`).

The graph-library primitives (pyvis `Network.add_node` / `add_edge`) are
not part of the repository; they are modelled from the spec (§3, §4.1,
§4.2) and from the in-source comment "pyvis handles duplicates
automatically": node identity dedup is by exact string equality on the
id with first occurrence's attributes winning, edge insertion checks
that both endpoints exist and appends one edge per call (parallel edges
are not merged).
-/

namespace WWCatalog

/-- A cell of a loaded table: pandas missing value (NaN) or a string. -/
inductive Cell where
  | na : Cell
  | str : String → Cell
deriving DecidableEq, Repr

/-- A relationship row of the comprehensive dataset as parsed from CSV,
before normalization (src/main.py `load_data`, src/all_relation.py
`load_data`): each column may hold a missing value. -/
structure RawRow where
  automation_company : Cell
  security_provider : Cell
  marketed_solution : Cell
  partnership_type : Cell
  services_offered : Cell
  sectors : Cell
  sources : Cell
deriving DecidableEq, Repr

/-- A row of the water-focused dataset: the comprehensive columns plus
the textual `service_tags` column. -/
structure WaterRawRow extends RawRow where
  service_tags : Cell
deriving DecidableEq, Repr

/-- A water-focused row after loading: `service_tags` parsed into a
list of strings, all other cells untouched. -/
structure LoadedWaterRow extends RawRow where
  service_tags : List String
deriving DecidableEq, Repr

/-- The cells of a row, in column order. -/
def RawRow.cells (r : RawRow) : List Cell :=
  [r.automation_company, r.security_provider, r.marketed_solution,
   r.partnership_type, r.services_offered, r.sectors, r.sources]

/-- `df.fillna('Not specified')` on one cell: a missing value becomes
the sentinel, any string is kept as is. -/
def fillCell (c : Cell) : Cell :=
  match c with
  | Cell.na => Cell.str "Not specified"
  | Cell.str s => Cell.str s

/-- `df.fillna('Not specified', inplace=True)` on one row
(src/main.py line 43, src/all_relation.py line 19). -/
def fillnaRow (r : RawRow) : RawRow :=
  { automation_company := fillCell r.automation_company
    security_provider := fillCell r.security_provider
    marketed_solution := fillCell r.marketed_solution
    partnership_type := fillCell r.partnership_type
    services_offered := fillCell r.services_offered
    sectors := fillCell r.sectors
    sources := fillCell r.sources }

/-- `load_data(path, is_water_data=False)` after the CSV parse
(src/main.py lines 41-43): every missing value in every column is
replaced by the sentinel. -/
def load_data_comprehensive (rows : List RawRow) : List RawRow :=
  rows.map fillnaRow

/-- The single-quote character, as used in Python list literals. -/
def squote : Char := Char.ofNat 39

/-- Drop leading spaces of a character list. -/
def skipSpaces : List Char → List Char
  | ' ' :: rest => skipSpaces rest
  | l => l

/-- Body of a Python string literal opened with quote `q`: characters up
to the closing quote, and the rest of the input. -/
def parseStrBody (q : Char) : List Char → List Char → Option (String × List Char)
  | [], _ => none
  | c :: rest, acc =>
    if c = q then some (String.mk acc.reverse, rest)
    else parseStrBody q rest (c :: acc)

/-- A Python string literal (single- or double-quoted, no escapes). -/
def parseStrLit : List Char → Option (String × List Char)
  | c :: rest =>
    if c = squote ∨ c = '"' then parseStrBody c rest [] else none
  | [] => none

/-- Comma-separated string literals up to the closing bracket, with the
whole input required to be consumed (fueled recursion). -/
def parseItemsAux : Nat → List Char → List String → Option (List String)
  | 0, _, _ => none
  | fuel + 1, l, acc =>
    match skipSpaces l with
    | ']' :: rest => if skipSpaces rest = [] then some acc.reverse else none
    | l' =>
      match parseStrLit l' with
      | none => none
      | some (s, rest) =>
        match skipSpaces rest with
        | ',' :: rest2 => parseItemsAux fuel rest2 (s :: acc)
        | ']' :: rest2 =>
          if skipSpaces rest2 = [] then some (s :: acc).reverse else none
        | _ => none

/-- Modelled from the spec: `ast.literal_eval` (Python standard library,
not part of the repository) restricted to what the `service_tags` column
holds — a list literal of strings (§6: textual list-literal such as
`"['tag1','tag2']"`). Returns `none` where `literal_eval` would raise
`ValueError` or `SyntaxError` on such input. -/
def literalEvalStrList (s : String) : Option (List String) :=
  match skipSpaces s.toList with
  | '[' :: rest => parseItemsAux (rest.length + 1) rest []
  | _ => none

/-- `parse_tags` (src/main.py lines 33-39): a missing cell gives `[]`,
a malformed literal is recovered to `[]`, otherwise the parsed list. -/
def parse_tags (c : Cell) : List String :=
  match c with
  | Cell.na => []
  | Cell.str s => (literalEvalStrList s).getD []

/-- `load_data(path, is_water_data=True)` after the CSV parse
(src/main.py lines 31-40): only the `service_tags` column is
transformed; no sentinel substitution is performed on this variant. -/
def load_data_water (rows : List WaterRawRow) : List LoadedWaterRow :=
  rows.map (fun r => { toRawRow := r.toRawRow, service_tags := parse_tags r.service_tags })

/-- A relationship row as consumed by the filter and the graph builders
(all fields are displayable strings at that point). -/
structure Row where
  automation_company : String
  security_provider : String
  marketed_solution : String
  partnership_type : String
  services_offered : String
  sectors : String
  sources : String
deriving DecidableEq, Repr

/-- The `filter_type` radio value (src/main.py line 194). -/
inductive FilterType where
  | securityProvider
  | automationCompany
deriving DecidableEq, Repr

/-- `partner_col` selection (src/main.py line 84): if the center is a
security provider, partners come from `automation_company`, else from
`security_provider`. -/
def partnerValue (ft : FilterType) (r : Row) : String :=
  match ft with
  | FilterType.securityProvider => r.automation_company
  | FilterType.automationCompany => r.security_provider

/-- The edge tooltip (src/main.py lines 92 and 140). -/
def edgeTitle (r : Row) : String :=
  "Solution: " ++ r.marketed_solution ++ "<br>Type: " ++ r.partnership_type

/-- A pyvis node as configured by the calls in src/main.py. -/
structure GNode where
  id : String
  label : String
  color : Option String
  size : Nat
  shape : Option String
  title : Option String
deriving DecidableEq, Repr

/-- A pyvis edge: source, target and tooltip text. -/
structure GEdge where
  src : String
  dst : String
  title : String
deriving DecidableEq, Repr

/-- The graph under construction: node list and edge list. -/
structure Network where
  nodes : List GNode
  edges : List GEdge
deriving DecidableEq, Repr

/-- The freshly initialized graph. -/
def emptyNetwork : Network := { nodes := [], edges := [] }

/-- The ids of the nodes already in the graph. -/
def nodeIds (net : Network) : List String :=
  net.nodes.map (fun n => n.id)

/-- Modelled from the spec: pyvis `Network.add_node` (the library is not
part of the repository). Node identity dedup is by exact string equality
on the id; the first occurrence's attributes win — later duplicate
emissions are no-ops (spec §4.1 step 3, and the source comment "pyvis
handles duplicates automatically", src/main.py line 89). -/
def addNode (net : Network) (n : GNode) : Network :=
  if n.id ∈ nodeIds net then net
  else { net with nodes := net.nodes ++ [n] }

/-- Modelled from the spec: pyvis `Network.add_edge` (the library is not
part of the repository). Both endpoints must already exist as nodes
(otherwise the call fails, modelled as `none`); each call appends one
edge — multiple rows between the same pair give parallel edges, not
merged (spec §3, §4.2). -/
def addEdge (net : Network) (e : GEdge) : Option Network :=
  if e.src ∈ nodeIds net ∧ e.dst ∈ nodeIds net then
    some { net with edges := net.edges ++ [e] }
  else none

/-- The central node of star mode (src/main.py line 81): distinct color,
size 30, the name as label. -/
def centralNode (name : String) : GNode :=
  { id := name, label := name, color := some "#ff4b4b", size := 30,
    shape := none, title := none }

/-- A partner node of star mode (src/main.py line 90): default styling,
size 20. -/
def partnerNode (name : String) : GNode :=
  { id := name, label := name, color := none, size := 20,
    shape := none, title := none }

/-- The edge emitted for one row in star mode (src/main.py line 93):
from the center to the row's partner, with the row's tooltip. -/
def starEdge (central : String) (ft : FilterType) (r : Row) : GEdge :=
  { src := central, dst := partnerValue ft r, title := edgeTitle r }

/-- One iteration of the row loop of `create_partnership_graph`
(src/main.py lines 87-93): add the partner node, then the edge from the
center to the partner with the tooltip of this row. -/
def addPartnershipRow (central : String) (ft : FilterType) (net : Network)
    (r : Row) : Option Network :=
  addEdge (addNode net (partnerNode (partnerValue ft r)))
    (starEdge central ft r)

/-- `create_partnership_graph(df, central_node_name, filter_type)`
(src/main.py lines 61-93, the graph-building part): add the central
node, then for each row in order the partner node and the edge. -/
def create_partnership_graph (rows : List Row) (central : String)
    (ft : FilterType) : Option Network :=
  rows.foldlM (addPartnershipRow central ft)
    (addNode emptyNetwork (centralNode central))

/-- Insert a string at the end unless already present. -/
def insertUnique (acc : List String) (s : String) : List String :=
  if s ∈ acc then acc else acc ++ [s]

/-- pandas `Series.unique()`: the distinct values in order of first
appearance (src/main.py lines 129-130). -/
def uniqueVals (l : List String) : List String :=
  l.foldl insertUnique []

/-- An automation-partition node of bipartite mode
(src/main.py line 134). -/
def automationNode (name : String) : GNode :=
  { id := name, label := name, color := some "#1f77b4", size := 25,
    shape := some "box", title := some "Automation Company" }

/-- A security-partition node of bipartite mode
(src/main.py line 136). -/
def securityNode (name : String) : GNode :=
  { id := name, label := name, color := some "#2ca02c", size := 25,
    shape := some "dot", title := some "Security Provider" }

/-- The node-registration phase of `create_full_bipartite_graph`
(src/main.py lines 128-136): all distinct automation companies, then all
distinct security providers. -/
def bipartiteNodesNet (rows : List Row) : Network :=
  let auto := uniqueVals (rows.map (fun r => r.automation_company))
  let sec := uniqueVals (rows.map (fun r => r.security_provider))
  (auto.map automationNode ++ sec.map securityNode).foldl addNode emptyNetwork

/-- The edge emitted for one row in bipartite mode (src/main.py line
141): between the row's automation company and its security provider. -/
def bipEdge (r : Row) : GEdge :=
  { src := r.automation_company, dst := r.security_provider,
    title := edgeTitle r }

/-- `create_full_bipartite_graph(df)` (src/main.py lines 107-141, the
graph-building part): register the two partitions' nodes, then one edge
per row between its automation company and its security provider. -/
def create_full_bipartite_graph (rows : List Row) : Option Network :=
  rows.foldlM (fun net r => addEdge net (bipEdge r)) (bipartiteNodesNet rows)

/-- The filter dimension (src/main.py lines 199-211,
src/all_relation.py lines 41-53). -/
inductive FilterCol where
  | security_provider
  | automation_company
deriving DecidableEq, Repr

/-- The value of a row in the chosen filter column. -/
def colValue (c : FilterCol) (r : Row) : String :=
  match c with
  | FilterCol.security_provider => r.security_provider
  | FilterCol.automation_company => r.automation_company

/-- The pandas boolean mask `df[col] == value`: elementwise exact string
equality. -/
def eqMask (rows : List Row) (c : FilterCol) (v : String) : List Bool :=
  rows.map (fun r => colValue c r == v)

/-- pandas boolean-mask selection `df[mask]`: keep the rows whose mask
entry is true, in order. -/
def maskSelect (rows : List Row) (mask : List Bool) : List Row :=
  (rows.zip mask).filterMap (fun p => if p.2 then some p.1 else none)

/-- `filtered_df = df[df[col] == selected]` (src/main.py lines 204 and
211, src/all_relation.py lines 46 and 53). -/
def filtered_df (rows : List Row) (c : FilterCol) (v : String) : List Row :=
  maskSelect rows (eqMask rows c v)

/-- The success path of one star-mode iteration: the partner node is
added (a no-op on a duplicate id) and the row's edge is appended. -/
def starStep (central : String) (ft : FilterType) (net : Network)
    (r : Row) : Network :=
  { addNode net (partnerNode (partnerValue ft r)) with
    edges := (addNode net (partnerNode (partnerValue ft r))).edges ++
      [starEdge central ft r] }

/-- Row {automation "A1", security "S1", solution "X"} of the
end-to-end scenario. -/
def rowA1X : Row :=
  { automation_company := "A1", security_provider := "S1",
    marketed_solution := "X", partnership_type := "Not specified",
    services_offered := "Not specified", sectors := "Not specified",
    sources := "Not specified" }

/-- Row {automation "A2", security "S1", solution "Y"} of the
end-to-end scenario. -/
def rowA2Y : Row :=
  { automation_company := "A2", security_provider := "S1",
    marketed_solution := "Y", partnership_type := "Not specified",
    services_offered := "Not specified", sectors := "Not specified",
    sources := "Not specified" }

/-- A self-partnership row: filtering by security provider "S1", the
partner column (automation_company) also holds "S1". -/
def rowSelf : Row :=
  { automation_company := "S1", security_provider := "S1",
    marketed_solution := "X", partnership_type := "T",
    services_offered := "Sv", sectors := "Se", sources := "U" }

/-- A row whose automation company and security provider share the
name "X". -/
def rowXX : Row :=
  { automation_company := "X", security_provider := "X",
    marketed_solution := "M", partnership_type := "T",
    services_offered := "Sv", sectors := "Se", sources := "U" }

/-- A water-dataset row with a missing marketed_solution cell. -/
def waterRowNa : WaterRawRow :=
  { automation_company := Cell.str "A", security_provider := Cell.str "S",
    marketed_solution := Cell.na, partnership_type := Cell.str "T",
    services_offered := Cell.str "Sv", sectors := Cell.str "Se",
    sources := Cell.str "U", service_tags := Cell.str "['w']" }

/-- A water-dataset row with a malformed service_tags literal. -/
def waterRowMalformed : WaterRawRow :=
  { automation_company := Cell.str "A", security_provider := Cell.str "S",
    marketed_solution := Cell.str "M", partnership_type := Cell.str "T",
    services_offered := Cell.str "Sv", sectors := Cell.str "Se",
    sources := Cell.str "U", service_tags := Cell.str "not a list" }

/-- A comprehensive-dataset row with missing cells. -/
def rawRowNa : RawRow :=
  { automation_company := Cell.str "A", security_provider := Cell.str "S",
    marketed_solution := Cell.na, partnership_type := Cell.na,
    services_offered := Cell.str "Sv", sectors := Cell.na,
    sources := Cell.str "U" }

/-! ## Shared lemmas about the graph primitives -/

theorem nodeIds_addNode (net : Network) (n : GNode) :
    nodeIds (addNode net n) = insertUnique (nodeIds net) n.id := by
  unfold addNode insertUnique
  by_cases h : n.id ∈ nodeIds net
  · rw [if_pos h, if_pos h]
  · rw [if_neg h, if_neg h]
    simp [nodeIds]

theorem edges_addNode (net : Network) (n : GNode) :
    (addNode net n).edges = net.edges := by
  unfold addNode
  by_cases h : n.id ∈ nodeIds net
  · rw [if_pos h]
  · rw [if_neg h]

theorem mem_insertUnique (acc : List String) (t s : String) :
    s ∈ insertUnique acc t ↔ s ∈ acc ∨ s = t := by
  unfold insertUnique
  by_cases h : t ∈ acc
  · rw [if_pos h]
    constructor
    · exact Or.inl
    · rintro (hs | rfl)
      · exact hs
      · exact h
  · rw [if_neg h]
    simp

theorem nodup_insertUnique (acc : List String) (t : String)
    (h : acc.Nodup) : (insertUnique acc t).Nodup := by
  unfold insertUnique
  by_cases ht : t ∈ acc
  · rw [if_pos ht]
    exact h
  · rw [if_neg ht]
    simp [List.nodup_append, h, ht]

theorem mem_foldl_insertUnique (l : List String) :
    ∀ (acc : List String) (s : String),
      s ∈ l.foldl insertUnique acc ↔ s ∈ acc ∨ s ∈ l := by
  induction l with
  | nil => simp
  | cons t l ih =>
    intro acc s
    rw [List.foldl_cons, ih, mem_insertUnique]
    simp only [List.mem_cons]
    tauto

theorem nodup_foldl_insertUnique (l : List String) :
    ∀ acc : List String, acc.Nodup → (l.foldl insertUnique acc).Nodup := by
  induction l with
  | nil => intro acc h; exact h
  | cons t l ih =>
    intro acc h
    rw [List.foldl_cons]
    exact ih _ (nodup_insertUnique acc t h)

theorem length_foldl_insertUnique (l acc : List String) (hacc : acc.Nodup) :
    (l.foldl insertUnique acc).length = (acc ++ l).toFinset.card := by
  have hnd : (l.foldl insertUnique acc).Nodup :=
    nodup_foldl_insertUnique l acc hacc
  have hset : (l.foldl insertUnique acc).toFinset = (acc ++ l).toFinset := by
    apply Finset.ext
    intro s
    simp [List.mem_toFinset, mem_foldl_insertUnique]
  rw [← List.toFinset_card_of_nodup hnd, hset]

theorem addEdge_some (net : Network) (e : GEdge)
    (h1 : e.src ∈ nodeIds net) (h2 : e.dst ∈ nodeIds net) :
    addEdge net e = some { net with edges := net.edges ++ [e] } := by
  unfold addEdge
  rw [if_pos ⟨h1, h2⟩]

theorem mem_nodeIds_addNode (net : Network) (n : GNode) (s : String)
    (h : s ∈ nodeIds net) : s ∈ nodeIds (addNode net n) := by
  rw [nodeIds_addNode, mem_insertUnique]
  exact Or.inl h

theorem self_mem_nodeIds_addNode (net : Network) (n : GNode) :
    n.id ∈ nodeIds (addNode net n) := by
  rw [nodeIds_addNode, mem_insertUnique]
  exact Or.inr rfl

/-! ## Shared lemmas about star mode -/

theorem nodeIds_starStep (central : String) (ft : FilterType)
    (net : Network) (r : Row) :
    nodeIds (starStep central ft net r) =
      insertUnique (nodeIds net) (partnerValue ft r) := by
  unfold starStep
  show nodeIds (addNode net (partnerNode (partnerValue ft r))) = _
  rw [nodeIds_addNode]
  rfl

theorem edges_starStep (central : String) (ft : FilterType)
    (net : Network) (r : Row) :
    (starStep central ft net r).edges =
      net.edges ++ [starEdge central ft r] := by
  unfold starStep
  show (addNode net (partnerNode (partnerValue ft r))).edges ++ _ = _
  rw [edges_addNode]

theorem star_foldlM (central : String) (ft : FilterType) (rows : List Row) :
    ∀ net : Network, central ∈ nodeIds net →
      List.foldlM (addPartnershipRow central ft) net rows =
        some (rows.foldl (starStep central ft) net) := by
  induction rows with
  | nil => intro net _; rfl
  | cons r rows ih =>
    intro net h
    have hC : central ∈ nodeIds (addNode net (partnerNode (partnerValue ft r))) :=
      mem_nodeIds_addNode net _ central h
    have hp : partnerValue ft r ∈
        nodeIds (addNode net (partnerNode (partnerValue ft r))) :=
      self_mem_nodeIds_addNode net (partnerNode (partnerValue ft r))
    have hstep : addPartnershipRow central ft net r =
        some (starStep central ft net r) := by
      unfold addPartnershipRow
      rw [addEdge_some _ _ hC hp]
      rfl
    have hC2 : central ∈ nodeIds (starStep central ft net r) := by
      rw [nodeIds_starStep, mem_insertUnique]
      exact Or.inl h
    rw [List.foldlM_cons, hstep, List.foldl_cons]
    exact ih (starStep central ft net r) hC2

theorem nodeIds_foldl_starStep (central : String) (ft : FilterType)
    (rows : List Row) :
    ∀ net : Network,
      nodeIds (rows.foldl (starStep central ft) net) =
        (rows.map (partnerValue ft)).foldl insertUnique (nodeIds net) := by
  induction rows with
  | nil => intro net; rfl
  | cons r rows ih =>
    intro net
    rw [List.foldl_cons, List.map_cons, List.foldl_cons, ih, nodeIds_starStep]

theorem edges_foldl_starStep (central : String) (ft : FilterType)
    (rows : List Row) :
    ∀ net : Network,
      (rows.foldl (starStep central ft) net).edges =
        net.edges ++ rows.map (starEdge central ft) := by
  induction rows with
  | nil => intro net; simp
  | cons r rows ih =>
    intro net
    rw [List.foldl_cons, List.map_cons, ih, edges_starStep,
      List.append_assoc]
    rfl

theorem star_initial_nodeIds (central : String) :
    nodeIds (addNode emptyNetwork (centralNode central)) = [central] := by
  rw [nodeIds_addNode]
  simp [nodeIds, emptyNetwork, insertUnique, centralNode]

theorem star_initial_edges (central : String) :
    (addNode emptyNetwork (centralNode central)).edges = [] := by
  rw [edges_addNode]
  rfl

/-- The star builder always succeeds, with the edge list fully
described. -/
theorem create_partnership_graph_eq (rows : List Row) (central : String)
    (ft : FilterType) :
    create_partnership_graph rows central ft =
      some (rows.foldl (starStep central ft)
        (addNode emptyNetwork (centralNode central))) := by
  unfold create_partnership_graph
  apply star_foldlM
  rw [star_initial_nodeIds]
  simp

/-! ## Shared lemmas about bipartite mode -/

theorem nodeIds_foldl_addNode (ns : List GNode) :
    ∀ net : Network,
      nodeIds (ns.foldl addNode net) =
        (ns.map (fun n => n.id)).foldl insertUnique (nodeIds net) := by
  induction ns with
  | nil => intro net; rfl
  | cons n ns ih =>
    intro net
    rw [List.foldl_cons, List.map_cons, List.foldl_cons, ih, nodeIds_addNode]

theorem edges_foldl_addNode (ns : List GNode) :
    ∀ net : Network, (ns.foldl addNode net).edges = net.edges := by
  induction ns with
  | nil => intro net; rfl
  | cons n ns ih =>
    intro net
    rw [List.foldl_cons, ih, edges_addNode]

theorem mem_uniqueVals (l : List String) (s : String) :
    s ∈ uniqueVals l ↔ s ∈ l := by
  unfold uniqueVals
  rw [mem_foldl_insertUnique]
  simp

theorem nodeIds_bipartiteNodesNet (rows : List Row) :
    nodeIds (bipartiteNodesNet rows) =
      (uniqueVals (rows.map (fun r => r.automation_company)) ++
        uniqueVals (rows.map (fun r => r.security_provider))).foldl
        insertUnique [] := by
  unfold bipartiteNodesNet
  rw [nodeIds_foldl_addNode]
  congr 1
  rw [List.map_append, List.map_map, List.map_map]
  show _ ++ _ = _ ++ _
  congr 1 <;> exact List.map_id'' (fun x => rfl) _

theorem mem_nodeIds_bipartiteNodesNet (rows : List Row) (s : String) :
    s ∈ nodeIds (bipartiteNodesNet rows) ↔
      s ∈ rows.map (fun r => r.automation_company) ∨
      s ∈ rows.map (fun r => r.security_provider) := by
  rw [nodeIds_bipartiteNodesNet, mem_foldl_insertUnique]
  simp [mem_uniqueVals]

theorem edges_bipartiteNodesNet (rows : List Row) :
    (bipartiteNodesNet rows).edges = [] := by
  unfold bipartiteNodesNet
  rw [edges_foldl_addNode]
  rfl

theorem edge_foldlM (f : Row → GEdge) (rows : List Row) :
    ∀ net : Network,
      (∀ r ∈ rows, (f r).src ∈ nodeIds net ∧ (f r).dst ∈ nodeIds net) →
      List.foldlM (fun net r => addEdge net (f r)) net rows =
        some { net with edges := net.edges ++ rows.map f } := by
  induction rows with
  | nil =>
    intro net _
    simp
  | cons r rows ih =>
    intro net h
    have hr := h r (List.mem_cons_self r rows)
    rw [List.foldlM_cons, addEdge_some net (f r) hr.1 hr.2]
    show List.foldlM _ _ rows = _
    rw [ih { net with edges := net.edges ++ [f r] }
      (fun r' hr' => h r' (List.mem_cons_of_mem r hr'))]
    simp

/-- Every row's bipartite edge has both endpoints registered by the
node phase. -/
theorem bipartite_endpoints_mem (rows : List Row) :
    ∀ r ∈ rows, (bipEdge r).src ∈ nodeIds (bipartiteNodesNet rows) ∧
      (bipEdge r).dst ∈ nodeIds (bipartiteNodesNet rows) := by
  intro r hr
  constructor
  · rw [mem_nodeIds_bipartiteNodesNet]
    exact Or.inl (List.mem_map.mpr ⟨r, hr, rfl⟩)
  · rw [mem_nodeIds_bipartiteNodesNet]
    exact Or.inr (List.mem_map.mpr ⟨r, hr, rfl⟩)

/-- The node count of the bipartite node phase: one node per distinct
name among the automation and security values. -/
theorem bipartite_nodes_count (rows : List Row) :
    (bipartiteNodesNet rows).nodes.length =
      (rows.map (fun r => r.automation_company) ++
        rows.map (fun r => r.security_provider)).toFinset.card := by
  have h1 : (bipartiteNodesNet rows).nodes.length =
      (nodeIds (bipartiteNodesNet rows)).length :=
    (List.length_map _ _).symm
  rw [h1, nodeIds_bipartiteNodesNet,
    length_foldl_insertUnique _ _ List.nodup_nil, List.nil_append]
  congr 1
  apply Finset.ext
  intro s
  simp [List.mem_toFinset, List.mem_append, mem_uniqueVals]

/-! ## Lemmas about the loaders -/

theorem fillCell_ne_na (c : Cell) : fillCell c ≠ Cell.na := by
  cases c <;> simp [fillCell]

theorem fillCell_orig (c : Cell) :
    fillCell c = c ∨ fillCell c = Cell.str "Not specified" := by
  cases c
  · exact Or.inr rfl
  · exact Or.inl rfl

theorem cells_fillnaRow (r : RawRow) :
    RawRow.cells (fillnaRow r) = (RawRow.cells r).map fillCell := rfl

theorem maskSelect_map (p : Row → Bool) (rows : List Row) :
    maskSelect rows (rows.map p) = rows.filter p := by
  induction rows with
  | nil => rfl
  | cons r rows ih =>
    unfold maskSelect at ih ⊢
    rw [List.map_cons, List.zip_cons_cons, List.filterMap_cons]
    by_cases h : p r
    · simp [h, ih]
    · simp [h, ih]

/-! ## The claims -/

/-- C1 (amended): for every non-empty row sequence and center name, the
star-graph builder produces exactly one node per distinct name among
the center and the partner-column values — a partner value equal to the
center coincides with the already-registered center node instead of
counting as an extra node — and exactly one edge per row, parallel
edges not merged. -/
theorem star_graph_node_edge_count (rows : List Row) (central : String)
    (ft : FilterType) (_hne : rows ≠ []) :
    (create_partnership_graph rows central ft).map
        (fun net => (net.nodes.length, net.edges.length)) =
      some ((central :: rows.map (partnerValue ft)).toFinset.card,
        rows.length) := by
  rw [create_partnership_graph_eq, Option.map_some']
  have hn : (rows.foldl (starStep central ft)
        (addNode emptyNetwork (centralNode central))).nodes.length =
      (central :: rows.map (partnerValue ft)).toFinset.card := by
    have h1 : (rows.foldl (starStep central ft)
          (addNode emptyNetwork (centralNode central))).nodes.length =
        (nodeIds (rows.foldl (starStep central ft)
          (addNode emptyNetwork (centralNode central)))).length :=
      (List.length_map _ _).symm
    rw [h1, nodeIds_foldl_starStep, star_initial_nodeIds,
      length_foldl_insertUnique _ _ (List.nodup_singleton central),
      List.singleton_append]
  have he : (rows.foldl (starStep central ft)
        (addNode emptyNetwork (centralNode central))).edges.length =
      rows.length := by
    rw [edges_foldl_starStep, star_initial_edges, List.nil_append,
      List.length_map]
  rw [hn, he]

/-- Witness for C1's amended theorem at the two-row scenario input. -/
theorem star_graph_node_edge_count_witness :
    (create_partnership_graph [rowA1X, rowA2Y] "S1"
        FilterType.securityProvider).map
        (fun net => (net.nodes.length, net.edges.length)) =
      some (("S1" :: [rowA1X, rowA2Y].map
          (partnerValue FilterType.securityProvider)).toFinset.card,
        [rowA1X, rowA2Y].length) :=
  star_graph_node_edge_count [rowA1X, rowA2Y] "S1"
    FilterType.securityProvider (List.cons_ne_nil rowA1X [rowA2Y])

/-- Counterexample to C1 as stated: with the single self-partnership
row (partner column = center "S1"), the builder produces 1 node, while
the claim's count 1 + |distinct partner values| demands 2. -/
theorem star_selfpartner_count_cex :
    (create_partnership_graph [rowSelf] "S1"
        FilterType.securityProvider).map (fun net => net.nodes.length) =
      some 1 ∧
    1 + (uniqueVals ([rowSelf].map
        (partnerValue FilterType.securityProvider))).length = 2 ∧
    (1 : Nat) ≠ 2 := by
  refine ⟨rfl, rfl, by decide⟩

/-- C2 (amended): the bipartite builder produces one node per distinct
name among the automation_company and security_provider values — a name
appearing in both partitions yields a single node (nodes are keyed by
bare name, the first registration's styling winning), so the count is
|distinct automation| + |distinct security| only when the two value
sets are disjoint — and exactly one edge per row, parallel edges not
merged. -/
theorem bipartite_node_edge_count (rows : List Row) :
    (create_full_bipartite_graph rows).map
        (fun net => (net.nodes.length, net.edges.length)) =
      some ((rows.map (fun r => r.automation_company) ++
          rows.map (fun r => r.security_provider)).toFinset.card,
        rows.length) := by
  unfold create_full_bipartite_graph
  rw [edge_foldlM bipEdge rows (bipartiteNodesNet rows)
    (bipartite_endpoints_mem rows), Option.map_some']
  show some ((bipartiteNodesNet rows).nodes.length,
    ((bipartiteNodesNet rows).edges ++ rows.map bipEdge).length) = _
  rw [bipartite_nodes_count, edges_bipartiteNodesNet, List.nil_append,
    List.length_map]

/-- Counterexample to C2 as stated: a row whose automation company and
security provider share the name "X" yields a single node, while the
claim's count |distinct automation| + |distinct security| demands two
distinct nodes keyed per partition. -/
theorem bipartite_overlap_node_cex :
    (create_full_bipartite_graph [rowXX]).map
        (fun net => net.nodes.length) = some 1 ∧
    (uniqueVals ([rowXX].map (fun r => r.automation_company))).length +
      (uniqueVals ([rowXX].map (fun r => r.security_provider))).length = 2 ∧
    (1 : Nat) ≠ 2 := by
  refine ⟨rfl, rfl, by decide⟩

/-- C3 (amended): sentinel substitution is total for the comprehensive
variant of the loader — every cell of every loaded row is a cell of the
original row or the literal "Not specified", and never missing. (The
water-focused variant performs no sentinel substitution; see the
counterexample.) -/
theorem comprehensive_load_sentinel_total (rows : List RawRow)
    (r : RawRow) (hr : r ∈ load_data_comprehensive rows) :
    (∀ c ∈ RawRow.cells r, c ≠ Cell.na) ∧
    ∃ r0 ∈ rows, ∀ c ∈ RawRow.cells r,
      c ∈ RawRow.cells r0 ∨ c = Cell.str "Not specified" := by
  obtain ⟨r0, hr0, rfl⟩ := List.mem_map.mp hr
  constructor
  · intro c hc
    rw [cells_fillnaRow] at hc
    obtain ⟨c0, _, rfl⟩ := List.mem_map.mp hc
    exact fillCell_ne_na c0
  · refine ⟨r0, hr0, ?_⟩
    intro c hc
    rw [cells_fillnaRow] at hc
    obtain ⟨c0, hc0, rfl⟩ := List.mem_map.mp hc
    rcases fillCell_orig c0 with h | h
    · exact Or.inl (by rw [h]; exact hc0)
    · exact Or.inr h

/-- Witness for C3's amended theorem on a concrete row with missing
cells. -/
theorem comprehensive_load_sentinel_total_witness :
    (∀ c ∈ RawRow.cells (fillnaRow rawRowNa), c ≠ Cell.na) ∧
    ∃ r0 ∈ [rawRowNa], ∀ c ∈ RawRow.cells (fillnaRow rawRowNa),
      c ∈ RawRow.cells r0 ∨ c = Cell.str "Not specified" :=
  comprehensive_load_sentinel_total [rawRowNa] (fillnaRow rawRowNa)
    (by decide)

/-- Counterexample to C3 as stated: after loading the water-focused
variant, a missing marketed_solution cell is still missing — that
variant performs no sentinel substitution. -/
theorem water_load_missing_cell_cex :
    (load_data_water [waterRowNa]).map
      (fun r => r.marketed_solution) = [Cell.na] ∧
    Cell.na ≠ Cell.str "Not specified" := by
  refine ⟨rfl, by decide⟩

/-- C4: filtering by a chosen dimension and value returns exactly the
rows whose value in that column equals the chosen value by exact string
equality, preserving original row order (the result is a sublist of the
input), and no other rows. -/
theorem filtered_df_exact_match (rows : List Row) (c : FilterCol)
    (v : String) :
    filtered_df rows c v = rows.filter (fun r => colValue c r == v) ∧
    List.Sublist (filtered_df rows c v) rows ∧
    ∀ r : Row, r ∈ filtered_df rows c v ↔ r ∈ rows ∧ colValue c r = v := by
  have h : filtered_df rows c v =
      rows.filter (fun r => colValue c r == v) :=
    maskSelect_map _ rows
  refine ⟨h, ?_, ?_⟩
  · rw [h]
    exact List.filter_sublist rows
  · intro r
    rw [h, List.mem_filter]
    simp

/-- C5: tag parsing is total and never raises: a well-formed string
list literal parses to its elements, a malformed literal recovers to
the empty list, a missing cell gives the empty list, and a malformed
cell does not abort the water-variant load. -/
theorem parse_tags_total_cases :
    parse_tags (Cell.str "['a', 'b']") = ["a", "b"] ∧
    parse_tags (Cell.str "not a list") = [] ∧
    parse_tags Cell.na = [] ∧
    load_data_water [waterRowMalformed] =
      [{ toRawRow := waterRowMalformed.toRawRow, service_tags := [] }] := by
  refine ⟨by decide, by decide, rfl, by decide⟩

/-- C6: if a row's partner value equals the center name, the star-graph
builder still adds the self-edge from the center to itself for that
row. -/
theorem star_self_edge_added (rows : List Row) (central : String)
    (ft : FilterType) (r : Row) (hr : r ∈ rows)
    (hself : partnerValue ft r = central) :
    ∃ net, create_partnership_graph rows central ft = some net ∧
      GEdge.mk central central (edgeTitle r) ∈ net.edges := by
  refine ⟨_, create_partnership_graph_eq rows central ft, ?_⟩
  rw [edges_foldl_starStep, star_initial_edges, List.nil_append]
  refine List.mem_map.mpr ⟨r, hr, ?_⟩
  unfold starEdge
  rw [hself]

/-- Witness for C6 at a concrete self-partnership row. -/
theorem star_self_edge_added_witness :
    ∃ net, create_partnership_graph [rowSelf] "S1"
        FilterType.securityProvider = some net ∧
      GEdge.mk "S1" "S1" (edgeTitle rowSelf) ∈ net.edges :=
  star_self_edge_added [rowSelf] "S1" FilterType.securityProvider rowSelf
    (List.mem_cons_self rowSelf []) rfl

/-- C7: on an empty row sequence the star builder produces exactly the
center node (size 30 against the partners' 20, with the distinguishing
color) and zero edges, and the bipartite builder produces zero nodes
and zero edges. -/
theorem empty_rows_degenerate (central : String) (ft : FilterType) :
    create_partnership_graph [] central ft =
      some { nodes := [centralNode central], edges := [] } ∧
    (centralNode central).size = 30 ∧
    (centralNode central).color = some "#ff4b4b" ∧
    (partnerNode central).size = 20 ∧
    (partnerNode central).color = none ∧
    create_full_bipartite_graph [] = some { nodes := [], edges := [] } := by
  refine ⟨?_, rfl, rfl, rfl, rfl, rfl⟩
  show some (addNode emptyNetwork (centralNode central)) = _
  unfold addNode
  rw [if_neg (by simp [nodeIds, emptyNetwork])]
  rfl

/-- C8: end-to-end — filtering the two scenario rows by
security_provider = "S1" keeps both, and building the star graph
centered on "S1" yields exactly the nodes S1 (center), A1, A2 and the
edges S1→A1 and S1→A2, whose tooltips mention "X" and "Y"
respectively. -/
theorem end_to_end_star_scenario :
    filtered_df [rowA1X, rowA2Y] FilterCol.security_provider "S1" =
      [rowA1X, rowA2Y] ∧
    create_partnership_graph
        (filtered_df [rowA1X, rowA2Y] FilterCol.security_provider "S1")
        "S1" FilterType.securityProvider =
      some { nodes := [centralNode "S1", partnerNode "A1", partnerNode "A2"],
             edges := [GEdge.mk "S1" "A1" (edgeTitle rowA1X),
                       GEdge.mk "S1" "A2" (edgeTitle rowA2Y)] } ∧
    edgeTitle rowA1X = "Solution: X<br>Type: Not specified" ∧
    edgeTitle rowA2Y = "Solution: Y<br>Type: Not specified" ∧
    List.IsInfix "X".toList (edgeTitle rowA1X).toList ∧
    List.IsInfix "Y".toList (edgeTitle rowA2Y).toList := by
  refine ⟨by decide, by decide, by decide, by decide, by decide, by decide⟩

/-- C9: every edge emitted by the star-graph builder has the center as
its source endpoint — no partner-to-partner edge is ever created. -/
theorem star_edges_from_center (rows : List Row) (central : String)
    (ft : FilterType) :
    ∃ net, create_partnership_graph rows central ft = some net ∧
      ∀ e ∈ net.edges, e.src = central := by
  refine ⟨_, create_partnership_graph_eq rows central ft, ?_⟩
  rw [edges_foldl_starStep, star_initial_edges, List.nil_append]
  intro e he
  obtain ⟨r, _, rfl⟩ := List.mem_map.mp he
  rfl

/-- C10: in bipartite mode all distinct automation and security nodes
are registered before any edge is added, so every row's edge finds both
endpoints present and edge insertion never fails. -/
theorem bipartite_endpoints_before_edges (rows : List Row) :
    (∀ r ∈ rows, (bipEdge r).src ∈ nodeIds (bipartiteNodesNet rows) ∧
      (bipEdge r).dst ∈ nodeIds (bipartiteNodesNet rows)) ∧
    (create_full_bipartite_graph rows).isSome = true := by
  refine ⟨bipartite_endpoints_mem rows, ?_⟩
  unfold create_full_bipartite_graph
  rw [edge_foldlM bipEdge rows (bipartiteNodesNet rows)
    (bipartite_endpoints_mem rows)]
  rfl

end WWCatalog
